import Mathlib

/-!
Verification development for the genai-art-generator backend.

The TypeScript sources are shallowly embedded as Lean definitions:

* JavaScript string primitives (`trim`, `substring`, `replace`, `toLowerCase`,
  `.length`) are modelled character-wise on `String.data`; all inputs in the
  claims are ASCII, where the JS and Lean semantics agree.
* `Date` values are modelled by their millisecond timestamp (an `Int`);
  `Date.prototype.toISOString` / `new Date(iso)` form a lossless round trip at
  millisecond precision, so serialisation of `createdAt` is modelled as the
  identity on the timestamp.  The current time is passed as an explicit `now`
  parameter.
* The storage directory is an association list from file names (relative to the
  storage root) to file contents; `fs.writeFileSync` replaces any previous
  entry.  File writes are additionally recorded in an event trace so that write
  ordering can be stated.
* Outbound HTTP during download is an oracle `net : String → NetResp`; the
  source follows redirects by unbounded recursion, which is modelled with a
  fuel parameter whose exhaustion is the distinguished outcome `none`.
* The LLM completion (prompt enhancement) and the image-generation provider
  call are oracles given as `Except String String` results.
-/

deriving instance DecidableEq for Except

/-- JS `String.prototype.trim` (whitespace stripped from both ends),
modelled character-wise. -/
def jsTrim (s : String) : String :=
  ⟨((s.data.dropWhile Char.isWhitespace).reverse.dropWhile Char.isWhitespace).reverse⟩

/-- JS `String.prototype.length` (UTF-16 units; equal to the character count on
the ASCII inputs of the claims). -/
def jsLength (s : String) : Nat :=
  s.data.length

/-- JS `s.substring(0, n)`. -/
def jsSubstringTo (s : String) (n : Nat) : String :=
  ⟨s.data.take n⟩

/-- JS `s.replace(/[^a-z0-9]/gi, '-')`: every character that is not an ASCII
letter or digit becomes a dash. -/
def jsReplaceNonAlnumWithDash (s : String) : String :=
  ⟨s.data.map (fun c => if c.isAlphanum then c else '-')⟩

/-- JS `String.prototype.endsWith`, modelled character-wise. -/
def jsEndsWith (s post : String) : Bool :=
  decide (s.data.reverse.take post.data.length = post.data.reverse)

/-- JS `String.prototype.toLowerCase` on ASCII data. -/
def jsToLowerCase (s : String) : String :=
  ⟨s.data.map Char.toLower⟩

/-- Domain model `ImageMetadata` (src/models/ImageMetadata.ts): id, original
prompt, creation time (`Date`, modelled as ms timestamp), optional size and
quality tags. -/
structure ImageMetadata where
  id : String
  prompt : String
  createdAt : Int
  size : Option String
  quality : Option String
deriving DecidableEq

/-- The plain object produced by `ImageMetadata.toJSON` (the persisted record:
`{id, prompt, createdAt: <ISO string>, size, quality}`); `createdAt` is kept as
the timestamp, see the module comment. -/
structure MetadataJson where
  id : String
  prompt : String
  createdAt : Int
  size : Option String
  quality : Option String
deriving DecidableEq

/-- `ImageMetadata.prototype.toJSON`. -/
def ImageMetadata.toJSON (m : ImageMetadata) : MetadataJson :=
  ⟨m.id, m.prompt, m.createdAt, m.size, m.quality⟩

/-- `ImageMetadata.fromJSON`: rebuilds the domain object from the stored plain
object (`new Date(data.createdAt)` is the inverse of `toISOString`). -/
def ImageMetadata.fromJSON (data : MetadataJson) : ImageMetadata :=
  ⟨data.id, data.prompt, data.createdAt, data.size, data.quality⟩

/-- Domain model `ImageGenerationRequest`: prompt plus size and quality
strings.  The TS enums `ImageSize`/`ImageQuality` are string-valued; the
constructor performs no check on them (see `mkImageGenerationRequest`). -/
structure ImageGenerationRequest where
  prompt : String
  size : String
  quality : String
deriving DecidableEq

/-- The `ImageGenerationRequest` constructor together with its private
`validate`: throws `'Prompt cannot be empty'` when `!this.prompt` (empty
string) or `this.prompt.trim().length === 0`; otherwise stores all three
fields verbatim. -/
def mkImageGenerationRequest (prompt size quality : String) :
    Except String ImageGenerationRequest :=
  if prompt = "" ∨ jsLength (jsTrim prompt) = 0 then
    .error "Prompt cannot be empty"
  else
    .ok ⟨prompt, size, quality⟩

/-- Content of one file in the storage directory: an image blob, a metadata
file that `JSON.parse` + `fromJSON` accepts, or an unparsable metadata file. -/
inductive Entry where
  | image
  | metaValid (m : MetadataJson)
  | metaCorrupt
deriving DecidableEq

/-- The storage root: file names (relative to the storage path) with their
contents. -/
abbrev Dir := List (String × Entry)

/-- `FileImageRepository.getImagePath` (paths relative to the storage root,
`path.join(storagePath, imageId + '.png')`). -/
def getImagePath (imageId : String) : String :=
  imageId ++ ".png"

/-- `FileImageRepository.getMetadataPath`. -/
def getMetadataPath (imageId : String) : String :=
  imageId ++ ".json"

/-- First-match lookup of a file name in the directory listing. -/
def dirLookup : Dir → String → Option Entry
  | [], _ => none
  | (k, e) :: rest, p => if k = p then some e else dirLookup rest p

/-- `fs.writeFileSync`: replaces any existing file of that name. -/
def dirInsert (dir : Dir) (p : String) (e : Entry) : Dir :=
  (p, e) :: List.eraseP (fun kv => decide (kv.1 = p)) dir

/-- A file-system write event: the image bytes committed to an image path, or
a metadata record committed to a metadata path. -/
inductive FsEvent where
  | imageWrite (path : String)
  | metaWrite (path : String) (m : MetadataJson)
deriving DecidableEq

/-- Effect of one write event on the directory. -/
def applyEvent (dir : Dir) : FsEvent → Dir
  | .imageWrite p => dirInsert dir p .image
  | .metaWrite p m => dirInsert dir p (.metaValid m)

/-- Effect of a trace of write events, oldest first. -/
def applyTrace (dir : Dir) (tr : List FsEvent) : Dir :=
  tr.foldl applyEvent dir

/-- One remote HTTP response during image download: status code, optional
`Location` header, and whether piping the body into the file stream completes
(`streamOk = false` models a stream error after the file was created). -/
structure NetResp where
  status : Nat
  location : Option String
  streamOk : Bool
deriving DecidableEq

/-- Outcome of `downloadImage`: `result = none` models the unbounded redirect
recursion of the source never terminating (fuel exhausted); the trace records
file writes performed. -/
structure DownloadOut where
  result : Option (Except String Unit)
  trace : List FsEvent
deriving DecidableEq

/-- `FileImageRepository.downloadImage`: status 200 creates the file stream and
resolves (or rejects on stream error); status 301/302 recurses on the
`Location` header and rejects with `'Redirect without location header'` when it
is absent; every other status rejects with
`'Failed to download image: <status>'`. -/
def downloadImage (net : String → NetResp) : Nat → String → String → DownloadOut
  | 0, _, _ => ⟨none, []⟩
  | fuel + 1, url, filePath =>
    let r := net url
    if r.status = 200 then
      ⟨some (if r.streamOk then .ok () else .error "stream write failed"),
        [.imageWrite filePath]⟩
    else if r.status = 301 ∨ r.status = 302 then
      match r.location with
      | some loc => downloadImage net fuel loc filePath
      | none => ⟨some (.error "Redirect without location header"), []⟩
    else
      ⟨some (.error ("Failed to download image: " ++ toString r.status)), []⟩

/-- Outcome of `FileImageRepository.save`: the returned id or the error, the
trace of file writes, and the directory afterwards. -/
structure SaveOut where
  result : Option (Except String String)
  trace : List FsEvent
  dirAfter : Dir
deriving DecidableEq

/-- `FileImageRepository.save`: generates a fresh id (passed here as
`freshId`, modelling `uuidv4()`), awaits the download into the image path, and
only then writes the metadata file (with `new Date()` passed as `now`) and
returns the id.  A download failure propagates before any metadata write. -/
def save (net : String → NetResp) (fuel : Nat) (dir : Dir) (imageUrl prompt : String)
    (size quality : Option String) (freshId : String) (now : Int) : SaveOut :=
  let imagePath := getImagePath freshId
  let metadataPath := getMetadataPath freshId
  let d := downloadImage net fuel imageUrl imagePath
  match d.result with
  | none => ⟨none, d.trace, applyTrace dir d.trace⟩
  | some (.error e) => ⟨some (.error e), d.trace, applyTrace dir d.trace⟩
  | some (.ok _) =>
    let metadata : ImageMetadata := ⟨freshId, prompt, now, size, quality⟩
    let tr := d.trace ++ [.metaWrite metadataPath metadata.toJSON]
    ⟨some (.ok freshId), tr, applyTrace dir tr⟩

/-- `FileImageRepository.findById`: absent metadata file gives `null`; an
unparsable one is caught and also gives `null`; otherwise the parsed record. -/
def findById (dir : Dir) (imageId : String) : Option ImageMetadata :=
  match dirLookup dir (getMetadataPath imageId) with
  | some (.metaValid m) => some (ImageMetadata.fromJSON m)
  | some _ => none
  | none => none

/-- `FileImageRepository.exists`: presence of the image file only. -/
def existsImage (dir : Dir) (imageId : String) : Bool :=
  (dirLookup dir (getImagePath imageId)).isSome

/-- The record-collecting loop of `FileImageRepository.findAll`: keep the
`.json` files, parse each, and skip the ones whose parse fails. -/
def parseRecords (dir : Dir) : List ImageMetadata :=
  (dir.filter (fun kv => jsEndsWith kv.1 ".json")).filterMap (fun kv =>
    match kv.2 with
    | .metaValid m => some (ImageMetadata.fromJSON m)
    | _ => none)

/-- The sort comparator of `findAll`:
`(a, b) => b.createdAt.getTime() - a.createdAt.getTime()`, i.e. newest
first. -/
def byCreatedAtDesc (a b : ImageMetadata) : Bool :=
  decide (b.createdAt ≤ a.createdAt)

/-- `FileImageRepository.findAll`: parse all record files, skipping unparsable
ones, then sort by `createdAt` descending (a stable sort, as in modern JS
engines). -/
def findAll (dir : Dir) : List ImageMetadata :=
  (parseRecords dir).mergeSort byCreatedAtDesc

/-- Result of `ImageGenerationService.generateImage`: note the field names
`imageId` and `imageUrl` used by the source. -/
structure GenerationResult where
  imageId : String
  imageUrl : String
  prompt : String
deriving DecidableEq

/-- `ImageGenerationService.generateImage`: runs the strategy (an oracle whose
result already carries the strategy's own error wrapping), rejects an empty
URL, persists via `save` with the original request prompt, and returns
`{imageId, imageUrl: '/api/images/' + imageId, prompt: request.prompt}`.
Every error is re-wrapped as `'Failed to generate image: <message>'`. -/
def generateImage (net : String → NetResp) (fuel : Nat) (dir : Dir) (freshId : String)
    (now : Int) (strategyResult : Except String String)
    (request : ImageGenerationRequest) :
    Option (Except String GenerationResult × Dir) :=
  match strategyResult with
  | .error e => some (.error ("Failed to generate image: " ++ e), dir)
  | .ok imageUrl =>
    if imageUrl = "" then
      some (.error "Failed to generate image: Image generation returned no URL", dir)
    else
      let out := save net fuel dir imageUrl request.prompt (some request.size)
        (some request.quality) freshId now
      match out.result with
      | none => none
      | some (.error e) =>
        some (.error ("Failed to generate image: " ++ e), out.dirAfter)
      | some (.ok imageId) =>
        some (.ok ⟨imageId, "/api/images/" ++ imageId, request.prompt⟩, out.dirAfter)

/-- `ImageGenerationService.getImageById`: missing record throws
`'Image not found'`; record present but image file absent throws
`'Image file not found'`; otherwise the image path and the record. -/
def getImageById (dir : Dir) (imageId : String) :
    Except String (String × MetadataJson) :=
  match findById dir imageId with
  | none => .error "Image not found"
  | some metadata =>
    let path := getImagePath imageId
    if existsImage dir imageId then
      .ok (path, metadata.toJSON)
    else
      .error "Image file not found"

/-- `ImageGenerationService.getDownloadFilename`: without a record,
`artwork-<id>.png`; otherwise the stored prompt is truncated to 50 characters,
every non-alphanumeric character becomes a dash, the result is lowercased, and
the filename is `artwork-<slug>-<id>.png`. -/
def getDownloadFilename (dir : Dir) (imageId : String) : String :=
  match findById dir imageId with
  | none => "artwork-" ++ imageId ++ ".png"
  | some metadata =>
    let sanitizedPrompt :=
      jsToLowerCase (jsReplaceNonAlnumWithDash (jsSubstringTo metadata.prompt 50))
    "artwork-" ++ sanitizedPrompt ++ "-" ++ imageId ++ ".png"

/-- `LangChainImageGenerationStrategy.enhancePromptWithLangChain`: the chat
completion is an oracle; on any failure the original prompt is returned; a
successful completion is accepted (trimmed) only when it is a non-empty string
whose trimmed length strictly exceeds the original prompt's length. -/
def enhancePromptWithLangChain (completion : Except String String)
    (originalPrompt : String) : String :=
  match completion with
  | .error _ => originalPrompt
  | .ok enhancedPrompt =>
    if enhancedPrompt ≠ "" ∧ jsLength (jsTrim enhancedPrompt) > jsLength originalPrompt then
      jsTrim enhancedPrompt
    else
      originalPrompt

/-- Claimed enhancer behaviour, following the spec's words for the refinement
comparison in C4: the acceptance test compares the raw completion's length
(not the trimmed length) with the original prompt's length. -/
def enhanceClaimed (completion : Except String String)
    (originalPrompt : String) : String :=
  match completion with
  | .error _ => originalPrompt
  | .ok c =>
    if c ≠ "" ∧ jsLength c > jsLength originalPrompt then
      jsTrim c
    else
      originalPrompt

/-- A JSON value as used in the response bodies of the controller. -/
inductive JVal where
  | jstr (s : String)
  | jbool (b : Bool)
deriving DecidableEq

/-- An HTTP response body: a JSON object (ordered key/value pairs), a streamed
file (`res.sendFile`), or an attachment (`res.download`). -/
inductive RespBody where
  | json (fields : List (String × JVal))
  | file (path : String)
  | download (path : String) (filename : String)
deriving DecidableEq

/-- Key lookup in a JSON response body. -/
def RespBody.lookupKey : RespBody → String → Option JVal
  | .json fields, k =>
    match fields.find? (fun kv => decide (kv.1 = k)) with
    | some kv => some kv.2
    | none => none
  | _, _ => none

/-- An HTTP response: status code and body. -/
structure HttpResponse where
  status : Nat
  body : RespBody
deriving DecidableEq

/-- The JSON request body of POST `/generate` (fields absent or present). -/
structure GenerateBody where
  prompt : Option String
  size : Option String
  quality : Option String

/-- `ImageController.generate`: missing or empty prompt gives
`400 {error: 'Prompt is required'}`; size and quality default to `'1024x1024'`
and `'standard'`; any exception thrown afterwards — including the
`ImageGenerationRequest` validation error for whitespace-only prompts — is
caught by the generic handler and mapped to
`500 {error: 'Failed to generate image', message}`; a successful pipeline run
is answered with `200 {success: true, ...result}` (spread of the service
result, so the keys are `imageId`, `imageUrl`, `prompt`). -/
def controllerGenerate (net : String → NetResp) (fuel : Nat) (dir : Dir)
    (freshId : String) (now : Int) (strategyResult : Except String String)
    (body : GenerateBody) : Option (HttpResponse × Dir) :=
  let size := body.size.getD "1024x1024"
  let quality := body.quality.getD "standard"
  match body.prompt with
  | none => some (⟨400, .json [("error", .jstr "Prompt is required")]⟩, dir)
  | some prompt =>
    if prompt = "" then
      some (⟨400, .json [("error", .jstr "Prompt is required")]⟩, dir)
    else
      match mkImageGenerationRequest prompt size quality with
      | .error e =>
        some (⟨500, .json [("error", .jstr "Failed to generate image"),
          ("message", .jstr e)]⟩, dir)
      | .ok request =>
        match generateImage net fuel dir freshId now strategyResult request with
        | none => none
        | some (.error e, dirAfter) =>
          some (⟨500, .json [("error", .jstr "Failed to generate image"),
            ("message", .jstr e)]⟩, dirAfter)
        | some (.ok result, dirAfter) =>
          some (⟨200, .json [("success", .jbool true),
            ("imageId", .jstr result.imageId),
            ("imageUrl", .jstr result.imageUrl),
            ("prompt", .jstr result.prompt)]⟩, dirAfter)

/-- `ImageController.getById`: streams the file on success; the two service
messages `'Image not found'` and `'Image file not found'` are mapped to 404,
anything else to `500 {error: 'Failed to serve image'}`. -/
def controllerGetById (dir : Dir) (imageId : String) : HttpResponse :=
  match getImageById dir imageId with
  | .ok (path, _) => ⟨200, .file path⟩
  | .error e =>
    if e = "Image not found" ∨ e = "Image file not found" then
      ⟨404, .json [("error", .jstr e)]⟩
    else
      ⟨500, .json [("error", .jstr "Failed to serve image")]⟩

/-- HTTP redirect-class status (3xx), used to state C7 against the claim's
notion of a redirect response. -/
def isRedirectStatus (s : Nat) : Prop :=
  300 ≤ s ∧ s ≤ 399

instance (s : Nat) : Decidable (isRedirectStatus s) := by
  unfold isRedirectStatus
  infer_instance

/-- A network oracle whose every response is a plain 200 with a working
stream; used to instantiate witnesses. -/
def net200 : String → NetResp :=
  fun _ => ⟨200, none, true⟩

/-- A network oracle answering `"start"` with a 307 redirect (Location set)
and everything else with 200; used for the C7 counterexample. -/
def net307 : String → NetResp :=
  fun u => if u = "start" then ⟨307, some "next", true⟩ else ⟨200, none, true⟩

/-- Storage directory holding the C8 example record. -/
def dirC8 : Dir :=
  [("abc123.json", .metaValid
    ⟨"abc123", "A Beautiful!! Sunset@Sea", 0, some "1024x1024", some "standard"⟩)]

/-- Storage directory holding a record whose image file is missing; used for
the C9 witness. -/
def dirHalf : Dir :=
  [("xyz.json", .metaValid ⟨"xyz", "a cat", 0, none, none⟩)]

/-- Helper: a prompt that is non-empty after trimming passes request validation
and is stored verbatim. -/
theorem mkRequest_ok (prompt size quality : String)
    (h : jsLength (jsTrim prompt) ≠ 0) :
    mkImageGenerationRequest prompt size quality = .ok ⟨prompt, size, quality⟩ := by
  have hcond : ¬(prompt = "" ∨ jsLength (jsTrim prompt) = 0) := by
    rintro (rfl | hz)
    · exact h rfl
    · exact h hz
  simp [mkImageGenerationRequest, hcond]

/-- Helper: a prompt that is empty after trimming fails request validation. -/
theorem mkRequest_err (prompt size quality : String)
    (h : jsLength (jsTrim prompt) = 0) :
    mkImageGenerationRequest prompt size quality = .error "Prompt cannot be empty" := by
  simp [mkImageGenerationRequest, Or.inr h]

/-- C10: request construction validates only the prompt; arbitrary size and
quality strings are stored verbatim, unmodified and unchecked. -/
theorem C10_size_quality_passthrough (prompt size quality : String)
    (h : jsLength (jsTrim prompt) ≠ 0) :
    mkImageGenerationRequest prompt size quality = .ok ⟨prompt, size, quality⟩ :=
  mkRequest_ok prompt size quality h

/-- C10 witness at a concrete input with size and quality outside the
enumerated sets. -/
theorem C10_witness :
    mkImageGenerationRequest "hi" "weird-size" "ultra" = .ok ⟨"hi", "weird-size", "ultra"⟩ :=
  C10_size_quality_passthrough "hi" "weird-size" "ultra" (by decide)

/-- C4 counterexample: a non-empty completion strictly longer than the
original prompt ("  z  " vs "xy") for which the enhancer returns the original
prompt, not the trimmed completion — the acceptance test uses the trimmed
length. -/
theorem C4_counterexample :
    ("  z  " ≠ "" ∧ jsLength "  z  " > jsLength "xy")
    ∧ enhancePromptWithLangChain (.ok "  z  ") "xy" = "xy"
    ∧ enhancePromptWithLangChain (.ok "  z  ") "xy" ≠ jsTrim "  z  "
    ∧ enhanceClaimed (.ok "  z  ") "xy" = jsTrim "  z  " := by decide

/-- C4 (amended): enhancement is total and never propagates an error; a failed
completion call, an empty completion, or a completion whose TRIMMED length is
not strictly greater than the original prompt's length leaves the original
prompt unchanged; only a non-empty completion whose trimmed length strictly
exceeds the original's is returned, trimmed. -/
theorem C4_enhancer_fallback (completion : Except String String)
    (originalPrompt : String) :
    (∀ e, completion = .error e →
      enhancePromptWithLangChain completion originalPrompt = originalPrompt)
    ∧ (∀ c, completion = .ok c →
        c = "" ∨ jsLength (jsTrim c) ≤ jsLength originalPrompt →
        enhancePromptWithLangChain completion originalPrompt = originalPrompt)
    ∧ (∀ c, completion = .ok c → c ≠ "" →
        jsLength (jsTrim c) > jsLength originalPrompt →
        enhancePromptWithLangChain completion originalPrompt = jsTrim c) := by
  refine ⟨?_, ?_, ?_⟩
  · rintro e rfl; rfl
  · rintro c rfl hc
    rcases hc with rfl | hle
    · simp [enhancePromptWithLangChain]
    · have hno : ¬(c ≠ "" ∧ jsLength (jsTrim c) > jsLength originalPrompt) := by
        rintro ⟨-, hgt⟩
        omega
      simp only [enhancePromptWithLangChain, if_neg hno]
  · rintro c rfl hc hgt
    simp only [enhancePromptWithLangChain, if_pos (And.intro hc hgt)]

/-- C4 witness: a completion strictly longer even after trimming is accepted
and returned trimmed. -/
theorem C4_witness :
    enhancePromptWithLangChain (.ok "abcd") "ab" = jsTrim "abcd" :=
  (C4_enhancer_fallback (.ok "abcd") "ab").2.2 "abcd" rfl (by decide) (by decide)

/-- C2 counterexample: the whitespace-only prompt " " makes request
construction fail with the validation error, yet the Generate endpoint
answers 500, not 400 — the error is caught by the generic handler. -/
theorem C2_counterexample :
    mkImageGenerationRequest " " "1024x1024" "standard" = .error "Prompt cannot be empty"
    ∧ (controllerGenerate net200 1 [] "abc123" 0 (.ok "u") ⟨some " ", none, none⟩).map
        (fun rd => rd.1.status) = some 500 := by
  exact ⟨by decide, by rfl⟩

/-- C2 (amended): construction succeeds exactly for prompts non-empty after
trimming and otherwise fails with the validation error; the endpoint answers
400 for a missing or empty prompt, but a whitespace-only prompt reaches the
constructor and its validation error is mapped to 500 by the generic
handler. -/
theorem C2_validation (p size quality : String) (net : String → NetResp)
    (fuel : Nat) (dir : Dir) (freshId : String) (now : Int)
    (strategyResult : Except String String) :
    (jsLength (jsTrim p) ≠ 0 →
      mkImageGenerationRequest p size quality = .ok ⟨p, size, quality⟩)
    ∧ (jsLength (jsTrim p) = 0 →
      mkImageGenerationRequest p size quality = .error "Prompt cannot be empty")
    ∧ ((controllerGenerate net fuel dir freshId now strategyResult
        ⟨none, none, none⟩).map (fun rd => rd.1.status) = some 400)
    ∧ ((controllerGenerate net fuel dir freshId now strategyResult
        ⟨some "", none, none⟩).map (fun rd => rd.1.status) = some 400)
    ∧ (p ≠ "" → jsLength (jsTrim p) = 0 →
      (controllerGenerate net fuel dir freshId now strategyResult
        ⟨some p, none, none⟩).map (fun rd => rd.1.status) = some 500) := by
  refine ⟨mkRequest_ok p size quality, mkRequest_err p size quality, rfl, rfl, ?_⟩
  intro hp hz
  simp [controllerGenerate, hp, mkRequest_err p _ _ hz]

/-- C2 witness: the amended behaviour at the concrete whitespace-only
prompt " ". -/
theorem C2_witness :
    (controllerGenerate net200 1 [] "w" 0 (.ok "u") ⟨some " ", none, none⟩).map
      (fun rd => rd.1.status) = some 500 :=
  (C2_validation " " "1024x1024" "standard" net200 1 [] "w" 0 (.ok "u")).2.2.2.2
    (by decide) (by decide)

/-- C9: retrieval distinguishes the two not-found cases with distinct
messages, both mapped to 404, and streams the image path only when both the
record and the image file exist. -/
theorem C9_retrieve_not_found (dir : Dir) (imageId : String) :
    (findById dir imageId = none →
      getImageById dir imageId = .error "Image not found"
      ∧ controllerGetById dir imageId =
          ⟨404, .json [("error", .jstr "Image not found")]⟩)
    ∧ (∀ rec, findById dir imageId = some rec → existsImage dir imageId = false →
      getImageById dir imageId = .error "Image file not found"
      ∧ controllerGetById dir imageId =
          ⟨404, .json [("error", .jstr "Image file not found")]⟩)
    ∧ (∀ rec, findById dir imageId = some rec → existsImage dir imageId = true →
      getImageById dir imageId = .ok (getImagePath imageId, rec.toJSON)
      ∧ controllerGetById dir imageId = ⟨200, .file (getImagePath imageId)⟩)
    ∧ ("Image not found" : String) ≠ "Image file not found" := by
  refine ⟨?_, ?_, ?_, by decide⟩
  · intro h
    have h1 : getImageById dir imageId = .error "Image not found" := by
      unfold getImageById
      rw [h]
    exact ⟨h1, by simp [controllerGetById, h1]⟩
  · intro rec h hex
    have h1 : getImageById dir imageId = .error "Image file not found" := by
      unfold getImageById
      rw [h]
      simp [hex]
    exact ⟨h1, by simp [controllerGetById, h1]⟩
  · intro rec h hex
    have h1 : getImageById dir imageId = .ok (getImagePath imageId, rec.toJSON) := by
      unfold getImageById
      rw [h]
      simp [hex]
    exact ⟨h1, by simp [controllerGetById, h1]⟩

/-- C9 witness: a record whose image file is missing gives the distinct
404 message. -/
theorem C9_witness :
    getImageById dirHalf "xyz" = .error "Image file not found"
    ∧ controllerGetById dirHalf "xyz" =
        ⟨404, .json [("error", .jstr "Image file not found")]⟩ :=
  (C9_retrieve_not_found dirHalf "xyz").2.1 ⟨"xyz", "a cat", 0, none, none⟩ rfl rfl

/-- C8 counterexample: the code's sanitization of the spec's example prompt
yields THREE dashes between "beautiful" and "sunset" (two bangs and a space),
not the two dashes of the spec's example filename. -/
theorem C8_counterexample :
    getDownloadFilename dirC8 "abc123" = "artwork-a-beautiful---sunset-sea-abc123.png"
    ∧ getDownloadFilename dirC8 "abc123" ≠ "artwork-a-beautiful--sunset-sea-abc123.png" := by
  decide

/-- C8 (amended): truncation to 50 characters, every non-alphanumeric
character replaced by a dash, lowercasing, and assembly as
artwork-(slug)-(id).png produce, for the stored prompt
"A Beautiful!! Sunset@Sea" and id abc123, the filename
artwork-a-beautiful---sunset-sea-abc123.png. -/
theorem C8_download_filename :
    getDownloadFilename dirC8 "abc123" =
      "artwork-" ++ jsToLowerCase (jsReplaceNonAlnumWithDash
        (jsSubstringTo "A Beautiful!! Sunset@Sea" 50)) ++ "-" ++ "abc123" ++ ".png"
    ∧ getDownloadFilename dirC8 "abc123" =
      "artwork-a-beautiful---sunset-sea-abc123.png" := by
  refine ⟨rfl, by decide⟩

/-- Helper: the download never records a metadata write. -/
theorem downloadImage_trace_no_meta (net : String → NetResp) :
    ∀ (fuel : Nat) (url filePath p : String) (m : MetadataJson),
      FsEvent.metaWrite p m ∉ (downloadImage net fuel url filePath).trace := by
  intro fuel
  induction fuel with
  | zero =>
    intro url fp p m h
    simp [downloadImage] at h
  | succ n ih =>
    intro url fp p m h
    simp only [downloadImage] at h
    split at h
    · simp at h
    · split at h
      · split at h
        · exact ih _ _ _ _ h
        · simp at h
      · simp at h

/-- Helper: a successful download recorded the image write to the target
path. -/
theorem downloadImage_ok_imageWrite (net : String → NetResp) :
    ∀ (fuel : Nat) (url filePath : String),
      (downloadImage net fuel url filePath).result = some (.ok ()) →
      FsEvent.imageWrite filePath ∈ (downloadImage net fuel url filePath).trace := by
  intro fuel
  induction fuel with
  | zero =>
    intro url fp h
    simp [downloadImage] at h
  | succ n ih =>
    intro url fp h
    by_cases h200 : (net url).status = 200
    · simp [downloadImage, h200]
    · by_cases hred : (net url).status = 301 ∨ (net url).status = 302
      · cases hloc : (net url).location with
        | some loc =>
          have h' : (downloadImage net n loc fp).result = some (.ok ()) := by
            simpa [downloadImage, h200, hred, hloc] using h
          simpa [downloadImage, h200, hred, hloc] using ih loc fp h'
        | none =>
          simp [downloadImage, h200, hred, hloc] at h
      · simp [downloadImage, h200, hred] at h

/-- Helper: a successful download saw a 200 from some URL of the redirect
chain. -/
theorem downloadImage_ok_status (net : String → NetResp) :
    ∀ (fuel : Nat) (url filePath : String),
      (downloadImage net fuel url filePath).result = some (.ok ()) →
      ∃ u, (net u).status = 200 := by
  intro fuel
  induction fuel with
  | zero =>
    intro url fp h
    simp [downloadImage] at h
  | succ n ih =>
    intro url fp h
    simp only [downloadImage] at h
    split at h
    · next h200 => exact ⟨url, h200⟩
    · split at h
      · split at h
        · exact ih _ _ h
        · simp at h
      · simp at h

/-- C3: save commits the metadata file only after the image download has
completed: every metadata write in the trace belongs to a successful save and
targets the id's metadata path; a download failure propagates with no metadata
write; and on success the trace is the download trace followed by exactly one
final metadata write, with the image write to the id's image path strictly
before it. -/
theorem C3_write_order (net : String → NetResp) (fuel : Nat) (dir : Dir)
    (imageUrl prompt : String) (size quality : Option String) (freshId : String)
    (now : Int) :
    (∀ p m, FsEvent.metaWrite p m ∈
        (save net fuel dir imageUrl prompt size quality freshId now).trace →
      (save net fuel dir imageUrl prompt size quality freshId now).result =
        some (.ok freshId) ∧ p = getMetadataPath freshId)
    ∧ (∀ e, (downloadImage net fuel imageUrl (getImagePath freshId)).result =
        some (.error e) →
      (save net fuel dir imageUrl prompt size quality freshId now).result =
        some (.error e)
      ∧ ∀ p m, FsEvent.metaWrite p m ∉
          (save net fuel dir imageUrl prompt size quality freshId now).trace)
    ∧ ((save net fuel dir imageUrl prompt size quality freshId now).result =
        some (.ok freshId) →
      ∃ pre m, (save net fuel dir imageUrl prompt size quality freshId now).trace =
          pre ++ [FsEvent.metaWrite (getMetadataPath freshId) m]
        ∧ FsEvent.imageWrite (getImagePath freshId) ∈ pre) := by
  rcases hd : (downloadImage net fuel imageUrl (getImagePath freshId)).result with - | e | u
  · refine ⟨?_, ?_, ?_⟩
    · intro p m h
      simp only [save, hd] at h
      exact absurd h (downloadImage_trace_no_meta net fuel imageUrl _ p m)
    · intro e he
      simp at he
    · intro hok
      simp [save, hd] at hok
  · refine ⟨?_, ?_, ?_⟩
    · intro p m h
      simp only [save, hd] at h
      exact absurd h (downloadImage_trace_no_meta net fuel imageUrl _ p m)
    · intro e' he
      have heq : e = e' := by
        simpa using he
      subst heq
      refine ⟨by simp [save, hd], ?_⟩
      intro p m h
      simp only [save, hd] at h
      exact absurd h (downloadImage_trace_no_meta net fuel imageUrl _ p m)
    · intro hok
      simp [save, hd] at hok
  · refine ⟨?_, ?_, ?_⟩
    · intro p m h
      simp only [save, hd, List.mem_append, List.mem_singleton] at h
      rcases h with h | h
      · exact absurd h (downloadImage_trace_no_meta net fuel imageUrl _ p m)
      · simp only [FsEvent.metaWrite.injEq] at h
        exact ⟨by simp [save, hd], h.1⟩
    · intro e he
      simp at he
    · intro hok
      refine ⟨(downloadImage net fuel imageUrl (getImagePath freshId)).trace,
        (ImageMetadata.toJSON ⟨freshId, prompt, now, size, quality⟩), ?_, ?_⟩
      · simp [save, hd]
      · cases u
        exact downloadImage_ok_imageWrite net fuel imageUrl (getImagePath freshId) hd

/-- C3 witness: a concrete successful save whose trace is the image write
followed by the metadata write. -/
theorem C3_witness :
    ∃ pre m, (save net200 1 [] "https://u" "a cat" (some "1024x1024")
        (some "standard") "i" 5).trace =
      pre ++ [FsEvent.metaWrite (getMetadataPath "i") m]
    ∧ FsEvent.imageWrite (getImagePath "i") ∈ pre :=
  (C3_write_order net200 1 [] "https://u" "a cat" (some "1024x1024")
    (some "standard") "i" 5).2.2 rfl

/-- C7 counterexample: a 307 response — a redirect-class status carrying a
Location header pointing at a 200 — is not followed; the download fails with
the DownloadError message instead. -/
theorem C7_counterexample :
    isRedirectStatus (net307 "start").status
    ∧ (net307 "start").location = some "next"
    ∧ (net307 "next").status = 200
    ∧ (downloadImage net307 2 "start" "f.png").result =
        some (.error "Failed to download image: 307") := by
  decide

/-- C7 (amended): the download succeeds only after receiving a 200 somewhere
along the chain; exactly the statuses 301 and 302 are treated as redirects —
followed through their Location header, failing without one — and every other
status, success-class and redirect-class alike apart from 200, 301 and 302,
fails with the DownloadError message. -/
theorem C7_download_statuses (net : String → NetResp) (fuel : Nat)
    (url filePath : String) :
    ((net url).status = 200 →
      downloadImage net (fuel + 1) url filePath =
        ⟨some (if (net url).streamOk then .ok () else .error "stream write failed"),
          [.imageWrite filePath]⟩)
    ∧ (∀ loc, ((net url).status = 301 ∨ (net url).status = 302) →
        (net url).location = some loc →
        downloadImage net (fuel + 1) url filePath = downloadImage net fuel loc filePath)
    ∧ (((net url).status = 301 ∨ (net url).status = 302) →
        (net url).location = none →
        downloadImage net (fuel + 1) url filePath =
          ⟨some (.error "Redirect without location header"), []⟩)
    ∧ ((net url).status ≠ 200 → ¬((net url).status = 301 ∨ (net url).status = 302) →
        downloadImage net (fuel + 1) url filePath =
          ⟨some (.error ("Failed to download image: " ++ toString (net url).status)), []⟩)
    ∧ ((downloadImage net fuel url filePath).result = some (.ok ()) →
        ∃ u, (net u).status = 200) := by
  refine ⟨?_, ?_, ?_, ?_, downloadImage_ok_status net fuel url filePath⟩
  · intro h200
    simp [downloadImage, h200]
  · intro loc hred hloc
    have h200 : ¬(net url).status = 200 := by
      rcases hred with h | h <;> omega
    simp [downloadImage, h200, hred, hloc]
  · intro hred hloc
    have h200 : ¬(net url).status = 200 := by
      rcases hred with h | h <;> omega
    simp [downloadImage, h200, hred, hloc]
  · intro h200 hred
    simp [downloadImage, h200, hred]

/-- C7 witness: a direct 200 is downloaded with a single image write. -/
theorem C7_witness :
    downloadImage net200 1 "https://u" "f.png" =
      ⟨some (.ok ()), [.imageWrite "f.png"]⟩ :=
  (C7_download_statuses net200 0 "https://u" "f.png").1 rfl

/-- C5: after a successful save, findById on the returned id yields a record
whose prompt, size and quality equal the saved inputs and whose createdAt is
the save-time clock value, hence within the call's execution window. -/
theorem C5_roundtrip (net : String → NetResp) (fuel : Nat) (dir : Dir)
    (imageUrl prompt : String) (size quality : Option String) (freshId : String)
    (now tStart tEnd : Int) (h1 : tStart ≤ now) (h2 : now ≤ tEnd)
    (hok : (save net fuel dir imageUrl prompt size quality freshId now).result =
      some (.ok freshId)) :
    ∃ rec, findById
        (save net fuel dir imageUrl prompt size quality freshId now).dirAfter
        freshId = some rec
      ∧ rec.prompt = prompt ∧ rec.size = size ∧ rec.quality = quality
      ∧ tStart ≤ rec.createdAt ∧ rec.createdAt ≤ tEnd := by
  rcases hd : (downloadImage net fuel imageUrl (getImagePath freshId)).result
    with - | e | u
  · simp [save, hd] at hok
  · simp [save, hd] at hok
  · refine ⟨⟨freshId, prompt, now, size, quality⟩, ?_, rfl, rfl, rfl, h1, h2⟩
    have hdir : (save net fuel dir imageUrl prompt size quality freshId now).dirAfter =
        dirInsert (applyTrace dir
          (downloadImage net fuel imageUrl (getImagePath freshId)).trace)
          (getMetadataPath freshId)
          (.metaValid (ImageMetadata.toJSON ⟨freshId, prompt, now, size, quality⟩)) := by
      simp [save, hd, applyTrace, List.foldl_append, applyEvent]
    rw [hdir]
    simp [findById, dirInsert, dirLookup, ImageMetadata.fromJSON, ImageMetadata.toJSON]

/-- C5 witness: concrete round trip with the save clock inside the window. -/
theorem C5_witness :
    ∃ rec, findById (save net200 1 [] "https://u" "a cat" (some "1024x1024")
        (some "standard") "i" 5).dirAfter "i" = some rec
      ∧ rec.prompt = "a cat" ∧ rec.size = some "1024x1024"
      ∧ rec.quality = some "standard"
      ∧ (4 : Int) ≤ rec.createdAt ∧ rec.createdAt ≤ 6 :=
  C5_roundtrip net200 1 [] "https://u" "a cat" (some "1024x1024") (some "standard")
    "i" 5 4 6 (by decide) (by decide) rfl

/-- C1 counterexample: a successful end-to-end run answers 200 with
success:true and the right values, but under the keys imageId and imageUrl —
the body has no id or url key. -/
theorem C1_counterexample :
    (controllerGenerate net200 1 [] "abc123" 0 (.ok "https://img.example/x.png")
      ⟨some "a cat", none, none⟩).map
      (fun rd => (rd.1.status, rd.1.body.lookupKey "id", rd.1.body.lookupKey "url",
        rd.1.body.lookupKey "success", rd.1.body.lookupKey "imageId",
        rd.1.body.lookupKey "imageUrl", rd.1.body.lookupKey "prompt")) =
    some (200, none, none, some (.jbool true), some (.jstr "abc123"),
      some (.jstr "/api/images/abc123"), some (.jstr "a cat")) := by
  rfl

/-- C1 (amended): a successful pipeline run returns the freshly generated id,
the stable URL /api/images/(id) and the original user prompt, and the Generate
handler answers 200 with a JSON body holding success:true plus the keys
imageId, imageUrl and prompt carrying those values. -/
theorem C1_generate_response (net : String → NetResp) (fuel : Nat) (dir : Dir)
    (freshId : String) (now : Int) (url p : String) (bsize bquality : Option String)
    (hp : p ≠ "") (hpt : jsLength (jsTrim p) ≠ 0) (hurl : url ≠ "")
    (hsave : (save net fuel dir url p (some (bsize.getD "1024x1024"))
        (some (bquality.getD "standard")) freshId now).result = some (.ok freshId)) :
    generateImage net fuel dir freshId now (.ok url)
        ⟨p, bsize.getD "1024x1024", bquality.getD "standard"⟩ =
      some (.ok ⟨freshId, "/api/images/" ++ freshId, p⟩,
        (save net fuel dir url p (some (bsize.getD "1024x1024"))
          (some (bquality.getD "standard")) freshId now).dirAfter)
    ∧ controllerGenerate net fuel dir freshId now (.ok url) ⟨some p, bsize, bquality⟩ =
      some (⟨200, .json [("success", .jbool true), ("imageId", .jstr freshId),
        ("imageUrl", .jstr ("/api/images/" ++ freshId)), ("prompt", .jstr p)]⟩,
        (save net fuel dir url p (some (bsize.getD "1024x1024"))
          (some (bquality.getD "standard")) freshId now).dirAfter) := by
  have hgen : generateImage net fuel dir freshId now (.ok url)
      ⟨p, bsize.getD "1024x1024", bquality.getD "standard"⟩ =
    some (.ok ⟨freshId, "/api/images/" ++ freshId, p⟩,
      (save net fuel dir url p (some (bsize.getD "1024x1024"))
        (some (bquality.getD "standard")) freshId now).dirAfter) := by
    simp only [generateImage, if_neg hurl, hsave]
  refine ⟨hgen, ?_⟩
  simp only [controllerGenerate, if_neg hp,
    mkRequest_ok p (bsize.getD "1024x1024") (bquality.getD "standard") hpt, hgen]

/-- C1 witness: the amended response shape at a concrete successful run. -/
theorem C1_witness :
    controllerGenerate net200 1 [] "abc123" 0 (.ok "https://img")
      ⟨some "a cat", none, none⟩ =
    some (⟨200, .json [("success", .jbool true), ("imageId", .jstr "abc123"),
      ("imageUrl", .jstr "/api/images/abc123"), ("prompt", .jstr "a cat")]⟩,
      (save net200 1 [] "https://img" "a cat" (some "1024x1024") (some "standard")
        "abc123" 0).dirAfter) :=
  (C1_generate_response net200 1 [] "abc123" 0 "https://img" "a cat" none none
    (by decide) (by decide) (by decide) rfl).2

/-- Helper: the findAll comparator is transitive. -/
theorem byCreatedAtDesc_trans (a b c : ImageMetadata)
    (hab : byCreatedAtDesc a b = true) (hbc : byCreatedAtDesc b c = true) :
    byCreatedAtDesc a c = true := by
  simp only [byCreatedAtDesc, decide_eq_true_iff] at *
  omega

/-- Helper: the findAll comparator is total. -/
theorem byCreatedAtDesc_total (a b : ImageMetadata) :
    (byCreatedAtDesc a b || byCreatedAtDesc b a) = true := by
  simp only [byCreatedAtDesc, Bool.or_eq_true, decide_eq_true_iff]
  omega

/-- Helper: an unparsable record file changes nothing in the parsed record
collection. -/
theorem parseRecords_corrupt (d1 d2 : Dir) (name : String) :
    parseRecords (d1 ++ (name, Entry.metaCorrupt) :: d2) = parseRecords (d1 ++ d2) := by
  simp only [parseRecords, List.filter_append, List.filter_cons]
  by_cases h : jsEndsWith name ".json" = true
  · simp [h, List.filterMap_append]
  · simp [h, List.filterMap_append]

/-- C6: findAll returns the parsable records (each unparsable record file is
skipped individually, without aborting the listing) sorted by createdAt
descending; for three records with strictly increasing timestamps the result
is exactly newest-to-oldest. -/
theorem C6_findAll_sorted (dir : Dir) :
    List.Pairwise (fun a b : ImageMetadata => b.createdAt ≤ a.createdAt) (findAll dir)
    ∧ (findAll dir).Perm (parseRecords dir)
    ∧ (∀ d1 d2 name, findAll (d1 ++ (name, Entry.metaCorrupt) :: d2) =
        findAll (d1 ++ d2))
    ∧ (∀ n1 n2 n3 m1 m2 m3, jsEndsWith n1 ".json" = true →
        jsEndsWith n2 ".json" = true → jsEndsWith n3 ".json" = true →
        m1.createdAt < m2.createdAt → m2.createdAt < m3.createdAt →
        findAll [(n1, Entry.metaValid m1), (n2, Entry.metaValid m2),
          (n3, Entry.metaValid m3)] =
        [ImageMetadata.fromJSON m3, ImageMetadata.fromJSON m2,
          ImageMetadata.fromJSON m1]) := by
  refine ⟨?_, List.mergeSort_perm (parseRecords dir) byCreatedAtDesc, ?_, ?_⟩
  · exact (@List.sorted_mergeSort _ byCreatedAtDesc byCreatedAtDesc_trans
      byCreatedAtDesc_total (parseRecords dir)).imp (fun h => of_decide_eq_true h)
  · intro d1 d2 name
    unfold findAll
    rw [parseRecords_corrupt]
  · intro n1 n2 n3 m1 m2 m3 h1 h2 h3 h12 h23
    have hP : parseRecords [(n1, Entry.metaValid m1), (n2, Entry.metaValid m2),
        (n3, Entry.metaValid m3)] =
        [ImageMetadata.fromJSON m1, ImageMetadata.fromJSON m2,
          ImageMetadata.fromJSON m3] := by
      simp [parseRecords, List.filter_cons, h1, h2, h3]
    have hLP : (findAll [(n1, Entry.metaValid m1), (n2, Entry.metaValid m2),
        (n3, Entry.metaValid m3)]).Perm
        [ImageMetadata.fromJSON m1, ImageMetadata.fromJSON m2,
          ImageMetadata.fromJSON m3] := by
      rw [findAll, hP]
      exact List.mergeSort_perm _ _
    have hle : List.Pairwise (fun a b : ImageMetadata => b.createdAt ≤ a.createdAt)
        (findAll [(n1, Entry.metaValid m1), (n2, Entry.metaValid m2),
          (n3, Entry.metaValid m3)]) := by
      rw [findAll]
      exact (@List.sorted_mergeSort _ byCreatedAtDesc byCreatedAtDesc_trans
        byCreatedAtDesc_total _).imp (fun h => of_decide_eq_true h)
    have hPne : List.Pairwise (fun a b : ImageMetadata => a.createdAt ≠ b.createdAt)
        [ImageMetadata.fromJSON m1, ImageMetadata.fromJSON m2,
          ImageMetadata.fromJSON m3] := by
      simp [List.pairwise_cons, ImageMetadata.fromJSON]
      omega
    have hne : List.Pairwise (fun a b : ImageMetadata => a.createdAt ≠ b.createdAt)
        (findAll [(n1, Entry.metaValid m1), (n2, Entry.metaValid m2),
          (n3, Entry.metaValid m3)]) :=
      (List.Perm.pairwise_iff (fun h => h.symm) hLP).mpr hPne
    have hlt : List.Pairwise (fun a b : ImageMetadata => b.createdAt < a.createdAt)
        (findAll [(n1, Entry.metaValid m1), (n2, Entry.metaValid m2),
          (n3, Entry.metaValid m3)]) :=
      (hle.and hne).imp (fun h => lt_of_le_of_ne h.1 (fun heq => h.2 heq.symm))
    have hRlt : List.Pairwise (fun a b : ImageMetadata => b.createdAt < a.createdAt)
        [ImageMetadata.fromJSON m3, ImageMetadata.fromJSON m2,
          ImageMetadata.fromJSON m1] := by
      simp [List.pairwise_cons, ImageMetadata.fromJSON]
      omega
    have hrev : ([ImageMetadata.fromJSON m1, ImageMetadata.fromJSON m2,
        ImageMetadata.fromJSON m3] : List ImageMetadata).reverse =
        [ImageMetadata.fromJSON m3, ImageMetadata.fromJSON m2,
          ImageMetadata.fromJSON m1] := by
      simp
    have hLR : (findAll [(n1, Entry.metaValid m1), (n2, Entry.metaValid m2),
        (n3, Entry.metaValid m3)]).Perm
        [ImageMetadata.fromJSON m3, ImageMetadata.fromJSON m2,
          ImageMetadata.fromJSON m1] := by
      rw [← hrev]
      exact hLP.trans (List.reverse_perm _).symm
    haveI : IsAntisymm ImageMetadata (fun a b => b.createdAt < a.createdAt) :=
      ⟨fun a b hab hba => (lt_asymm hab hba).elim⟩
    exact List.eq_of_perm_of_sorted hLR hlt hRlt

/-- C6 witness: three records with timestamps 1 < 2 < 3 come back
newest-first. -/
theorem C6_witness :
    findAll [("a.json", .metaValid ⟨"a", "p1", 1, none, none⟩),
      ("b.json", .metaValid ⟨"b", "p2", 2, none, none⟩),
      ("c.json", .metaValid ⟨"c", "p3", 3, none, none⟩)] =
    [ImageMetadata.fromJSON ⟨"c", "p3", 3, none, none⟩,
      ImageMetadata.fromJSON ⟨"b", "p2", 2, none, none⟩,
      ImageMetadata.fromJSON ⟨"a", "p1", 1, none, none⟩] :=
  (C6_findAll_sorted []).2.2.2 "a.json" "b.json" "c.json" _ _ _
    (by decide) (by decide) (by decide) (by decide) (by decide)
